import Mathlib

/-!
Shallow embedding of the vibeSnap backend (src/src-tauri/src/lib.rs): the
debounced change-detection and auto-commit pipeline, the diff renderer, the
history reader, and the watcher control surface.  Subprocess invocations and
file reads are modelled by explicit environment records; machine behaviour
that can abort (Rust slice panics) is modelled with Option.
-/

namespace VibeSnap

/-!
String primitives.  The embedding works through list-of-character versions of
the string operations the source uses, so that every definition evaluates by
kernel reduction on concrete inputs.
-/

/-- The first list is an initial segment of the second. -/
def listLeads : List Char → List Char → Bool
  | [], _ => true
  | _ :: _, [] => false
  | p :: ps, c :: cs => p == c && listLeads ps cs

/-- Model of Rust `str::starts_with`. -/
def strStartsWith (s pre : String) : Bool :=
  listLeads pre.data s.data

/-- Model of Rust `str::ends_with`. -/
def strEndsWith (s tail : String) : Bool :=
  listLeads tail.data.reverse s.data.reverse

/-- The needle occurs as a contiguous sublist of the haystack. -/
def listContainsSub (needle : List Char) : List Char → Bool
  | [] => listLeads needle []
  | c :: cs => listLeads needle (c :: cs) || listContainsSub needle cs

/-- Model of Rust `str::contains` on strings. -/
def containsSubstr (hay needle : String) : Bool :=
  listContainsSub needle.data hay.data

/-- Strip leading and trailing whitespace from a character list. -/
def trimChars (cs : List Char) : List Char :=
  ((cs.dropWhile Char.isWhitespace).reverse.dropWhile Char.isWhitespace).reverse

/-- Model of Rust `str::trim`. -/
def strTrim (s : String) : String :=
  ⟨trimChars s.data⟩

/-- Split on each leftmost non-overlapping occurrence of `sep`; `fuel` bounds
the recursion and is chosen larger than the input at the call site. -/
def splitOnFuel (sep : List Char) : Nat → List Char → List Char → List (List Char)
  | _, [], acc => [acc.reverse]
  | 0, cs, acc => [acc.reverse ++ cs]
  | fuel + 1, c :: cs, acc =>
    if listLeads sep (c :: cs) then
      acc.reverse :: splitOnFuel sep fuel ((c :: cs).drop sep.length) []
    else
      splitOnFuel sep fuel cs (c :: acc)

/-- Model of Rust `str::split` on a non-empty separator (also the behaviour
of the `split('|')` call in the history parser). -/
def strSplitOn (s sep : String) : List String :=
  (splitOnFuel sep.data (s.data.length + 1) s.data []).map String.mk

/-- Join strings with a separator. -/
def strIntercalate (sep : String) : List String → String
  | [] => ""
  | [x] => x
  | x :: y :: rest => x ++ sep ++ strIntercalate sep (y :: rest)

/-- First `n` characters. -/
def strTake (s : String) (n : Nat) : String :=
  ⟨s.data.take n⟩

/-- All but the first `n` characters. -/
def strDrop (s : String) (n : Nat) : String :=
  ⟨s.data.drop n⟩

/-- All but the last `n` characters. -/
def strDropRight (s : String) (n : Nat) : String :=
  ⟨s.data.take (s.data.length - n)⟩

/-- Model of Rust `str::lines`: split on newline, drop a final empty segment
produced by a trailing newline, and strip a trailing carriage return from each
line.  `rustLines "" = []`. -/
def rustLines (s : String) : List String :=
  if s = "" then []
  else
    let parts := strSplitOn s "\n"
    let parts := if parts.getLast? = some "" then parts.dropLast else parts
    parts.map (fun l => if strEndsWith l "\r" then strDropRight l 1 else l)

/-- Result of one subprocess invocation that was successfully spawned:
exit-status success flag, captured stdout and stderr (lossy UTF-8). -/
structure CmdResult where
  success : Bool
  stdout : String
  stderr : String
deriving DecidableEq

/-- `FriendlyDiffLine` from the source: one rendered diff line. -/
structure FriendlyDiffLine where
  content : String
  change_type : String
  line_number : Option Nat
deriving DecidableEq

/-- `FriendlyDiffContent` from the source. -/
structure FriendlyDiffContent where
  success : Bool
  summary : Option String
  lines : List FriendlyDiffLine
  error : Option String
deriving DecidableEq

/-- `SnapshotResult` from the source. -/
structure SnapshotResult where
  success : Bool
  message : String
  error : Option String
deriving DecidableEq

/-- `SnapshotHistoryItem` from the source. -/
structure SnapshotHistoryItem where
  hash : String
  date : String
  message : String
deriving DecidableEq

/-- `FileWatcherStatus` from the source. -/
structure FileWatcherStatus where
  is_watching : Bool
  project_path : Option String
  log_file_path : Option String
  last_auto_commit : Option String
deriving DecidableEq

/-- Structural diff header lines skipped by `parse_friendly_diff`. -/
def skipLine (line : String) : Bool :=
  strStartsWith line "diff --git" || strStartsWith line "index " ||
  strStartsWith line "--- a/" || strStartsWith line "+++ b/" ||
  strStartsWith line "@@"

/-- Accumulator of the `parse_friendly_diff` loop: rendered lines so far,
added / removed counters, and the next display line number. -/
structure ParseState where
  lines : List FriendlyDiffLine
  added : Nat
  removed : Nat
  lineNo : Nat
deriving DecidableEq

/-- One iteration of the `parse_friendly_diff` loop on one raw diff line. -/
def stepLine (st : ParseState) (line : String) : ParseState :=
  if skipLine line then st
  else if strStartsWith line "+" && !strStartsWith line "+++" then
    { st with lines := st.lines ++ [⟨strDrop line 1, "added", some st.lineNo⟩],
              added := st.added + 1, lineNo := st.lineNo + 1 }
  else if strStartsWith line "-" && !strStartsWith line "---" then
    { st with lines := st.lines ++ [⟨strDrop line 1, "removed", none⟩],
              removed := st.removed + 1 }
  else if line != "" then
    { st with lines := st.lines ++ [⟨line, "unchanged", some st.lineNo⟩],
              lineNo := st.lineNo + 1 }
  else st

/-- The six summary messages of `parse_friendly_diff`, in source order. -/
def diffSummary (added removed : Nat) : String :=
  if added > removed ∧ added > 5 then
    "此快照在文件中添加了大量新内容。"
  else if removed > added ∧ removed > 5 then
    "此快照在文件中删除了部分旧代码。"
  else if added > 0 ∧ removed > 0 then
    "此快照修改了文件内容，新增 " ++ toString added ++ " 行，删除 " ++
      toString removed ++ " 行。"
  else if added > 0 then
    "此快照在文件中新增了 " ++ toString added ++ " 行代码。"
  else if removed > 0 then
    "此快照从文件中删除了 " ++ toString removed ++ " 行代码。"
  else
    "此快照未对文件内容进行修改。"

/-- `parse_friendly_diff` from the source: classify every raw diff line and
derive the natural-language summary from the two counters. -/
def parse_friendly_diff (raw : String) : FriendlyDiffContent :=
  let st := (rustLines raw).foldl stepLine ⟨[], 0, 0, 1⟩
  ⟨true, some (diffSummary st.added st.removed), st.lines, none⟩

/-- A raw diff line that the loop classifies as added. -/
def isAddedLine (l : String) : Bool :=
  !skipLine l && strStartsWith l "+" && !strStartsWith l "+++"

/-- A raw diff line that the loop classifies as removed. -/
def isRemovedLine (l : String) : Bool :=
  !skipLine l && !(strStartsWith l "+" && !strStartsWith l "+++") &&
    strStartsWith l "-" && !strStartsWith l "---"

/-- Number of raw diff lines classified as added. -/
def addedCount (raw : String) : Nat :=
  ((rustLines raw).filter isAddedLine).length

/-- Number of raw diff lines classified as removed. -/
def removedCount (raw : String) : Nat :=
  ((rustLines raw).filter isRemovedLine).length

/-- The six summary branches named by the specification, as an enumeration. -/
inductive SummaryKind where
  | largeAdd
  | largeDel
  | mixed
  | onlyAdd
  | onlyDel
  | noChange
deriving DecidableEq

/-- Branch selection exactly as the specification words it: the thresholds in
the stated order over the added count `a` and removed count `r`. -/
def summaryKindSpec (a r : Nat) : SummaryKind :=
  if a > r ∧ a > 5 then .largeAdd
  else if r > a ∧ r > 5 then .largeDel
  else if a > 0 ∧ r > 0 then .mixed
  else if a > 0 then .onlyAdd
  else if r > 0 then .onlyDel
  else .noChange

/-- The concrete message text the source emits for each summary branch. -/
def summaryTextOfKind (k : SummaryKind) (a r : Nat) : String :=
  match k with
  | .largeAdd => "此快照在文件中添加了大量新内容。"
  | .largeDel => "此快照在文件中删除了部分旧代码。"
  | .mixed => "此快照修改了文件内容，新增 " ++ toString a ++ " 行，删除 " ++
      toString r ++ " 行。"
  | .onlyAdd => "此快照在文件中新增了 " ++ toString a ++ " 行代码。"
  | .onlyDel => "此快照从文件中删除了 " ++ toString r ++ " 行代码。"
  | .noChange => "此快照未对文件内容进行修改。"

/-- The non-removed lines of a rendered diff (those carrying numbers). -/
def nonRemoved (L : List FriendlyDiffLine) : List FriendlyDiffLine :=
  L.filter (fun l => l.change_type != "removed")

/-- The sequence `[some 1, some 2, ..., some n]` of display numbers. -/
def seqNums (n : Nat) : List (Option Nat) :=
  (List.range n).map (fun i => some (i + 1))

/-- The fixed default auto-commit label from `get_latest_prompt`. -/
def default_prompt : String := "自动提交：AI 已修改文件"

/-- `get_latest_prompt` from the source.  The instruction-log access is
modelled by `log_file : Option (Option String)`: outer `none` means no log
file is configured, `some none` means `fs::read_to_string` failed, and
`some (some content)` is a successful read of `content`.  The source takes
`lines.last()` and uses it only when its trim is non-empty. -/
def get_latest_prompt (log_file : Option (Option String)) : String :=
  match log_file with
  | some (some content) =>
    match (rustLines content).getLast? with
    | some last_line =>
      if strTrim last_line ≠ "" then strTrim last_line else default_prompt
    | none => default_prompt
  | _ => default_prompt

/-- The last non-blank line of the instruction log, as the specification
words the label-resolution rule. -/
def lastNonBlankLine (content : String) : Option String :=
  ((rustLines content).filter (fun l => strTrim l != "")).getLast?

/-- The specification's claim about label resolution, as stated: for every
configured and readable log, the label is the last non-blank line (trimmed),
falling back to the default only when no non-blank line exists. -/
def c1_claim_prop : Prop :=
  ∀ content : String,
    get_latest_prompt (some (some content)) =
      match lastNonBlankLine content with
      | some l => strTrim l
      | none => default_prompt

/-- A git subprocess invocation recorded by the commit pipeline models. -/
inductive GitCmd where
  | add
  | commit (message : String)
deriving DecidableEq

/-- Environment of one `create_snapshot` call: the two filesystem checks and
the outcomes of the `git add` / `git commit` invocations (`Except.error e`
models a failure to spawn the subprocess at all). -/
structure CommitEnv where
  dirExists : Bool
  gitDirExists : Bool
  addResult : Except String CmdResult
  commitResult : Except String CmdResult

/-- `create_snapshot` from the source, with the list of git commands actually
invoked recorded alongside the returned `SnapshotResult`. -/
def create_snapshot_run (env : CommitEnv) (prompt_message : String) :
    SnapshotResult × List GitCmd :=
  if !env.dirExists then
    (⟨false, "项目路径不存在", some "目录不存在"⟩, [])
  else if !env.gitDirExists then
    (⟨false, "项目不是 Git 仓库", some "请先初始化项目"⟩, [])
  else if strTrim prompt_message = "" then
    (⟨false, "请输入 AI 指令", some "消息不能为空"⟩, [])
  else
    match env.addResult with
    | .error e =>
      (⟨false, "添加文件失败", some ("无法执行 git add: " ++ e)⟩, [.add])
    | .ok addOut =>
      if !addOut.success then
        (⟨false, "添加文件失败", some ("git add 失败: " ++ addOut.stderr)⟩, [.add])
      else
        let commit_message := "[Vibe] AI Prompt: " ++ strTrim prompt_message
        match env.commitResult with
        | .error e =>
          (⟨false, "创建快照失败", some ("无法执行 git commit: " ++ e)⟩,
            [.add, .commit commit_message])
        | .ok c =>
          if !c.success then
            let error := c.stderr
            if containsSubstr error "nothing to commit" ||
                containsSubstr error "no changes added to commit" then
              (⟨false, "没有检测到变更", some "工作区没有新的修改需要提交"⟩,
                [.add, .commit commit_message])
            else
              let detailed_error :=
                if containsSubstr error "user.name" ||
                    containsSubstr error "user.email" then
                  "Git 用户信息未配置。错误详情: " ++ error
                else if containsSubstr error "nothing to commit" then
                  "没有检测到变更，工作区没有新的修改需要提交"
                else
                  "Git 提交失败。错误详情: " ++ error
              (⟨false, "创建快照失败", some detailed_error⟩,
                [.add, .commit commit_message])
          else (⟨true, "快照保存成功！", none⟩, [.add, .commit commit_message])

/-- The `SnapshotResult` view of `create_snapshot`. -/
def create_snapshot (env : CommitEnv) (prompt_message : String) : SnapshotResult :=
  (create_snapshot_run env prompt_message).1

/-- Environment of one `auto_commit_changes` call. -/
structure AutoCommitEnv where
  logRead : Option (Option String)
  addResult : Except String CmdResult
  commitResult : Except String CmdResult

/-- `auto_commit_changes` from the source, with the invoked git commands
recorded alongside the returned `SnapshotResult`. -/
def auto_commit_changes_run (env : AutoCommitEnv) : SnapshotResult × List GitCmd :=
  let prompt := get_latest_prompt env.logRead
  match env.addResult with
  | .error e =>
    (⟨false, "自动添加文件失败", some ("无法执行 git add: " ++ e)⟩, [.add])
  | .ok addOut =>
    if !addOut.success then
      (⟨false, "自动添加文件失败", some ("git add 失败: " ++ addOut.stderr)⟩, [.add])
    else
      let commit_message := "[Vibe] AI Prompt: " ++ prompt
      match env.commitResult with
      | .error e =>
        (⟨false, "自动创建快照失败", some ("无法执行 git commit: " ++ e)⟩,
          [.add, .commit commit_message])
      | .ok c =>
        if !c.success then
          if containsSubstr c.stderr "nothing to commit" ||
              containsSubstr c.stderr "no changes added to commit" then
            (⟨false, "没有检测到变更", some "工作区没有新的修改需要提交"⟩,
              [.add, .commit commit_message])
          else
            (⟨false, "自动创建快照失败", some ("git commit 失败: " ++ c.stderr)⟩,
              [.add, .commit commit_message])
        else
          (⟨true, "已自动创建快照：" ++ prompt, none⟩,
            [.add, .commit commit_message])

/-- The `SnapshotResult` view of `auto_commit_changes`. -/
def auto_commit_changes (env : AutoCommitEnv) : SnapshotResult :=
  (auto_commit_changes_run env).1

/-- The benign no-change outcome both commit paths return when the tool
reports that there is nothing to commit. -/
def benign_no_change : SnapshotResult :=
  ⟨false, "没有检测到变更", some "工作区没有新的修改需要提交"⟩

/-- Coarse kind of a raw file-system event (`notify::EventKind`; the modify
subkind carried by `Modify(_)` is irrelevant to the watcher loop and is
abstracted away). -/
inductive EventKind where
  | access
  | create
  | modify
  | remove
  | any
  | other
deriving DecidableEq

/-- A raw file-system event: a kind and the affected paths (rendered as
strings, as the source inspects `path.to_string_lossy()`). -/
structure FsEvent where
  kind : EventKind
  paths : List String
deriving DecidableEq

/-- The `.git` filter of the watcher loop: an event is ignored when some
path's string contains `".git"` as a substring. -/
def should_ignore (e : FsEvent) : Bool :=
  e.paths.any (fun p => containsSubstr p ".git")

/-- Whether the watcher loop arms (or re-arms) the debounce timer on this
event: only `Modify(_)` events whose paths all avoid the `".git"` substring
do so.  Every auto-commit attempt originates from an armed timer. -/
def arms_timer (e : FsEvent) : Bool :=
  (e.kind == EventKind.modify) && !should_ignore e

/-- The subsequence of a raw event trace that arms the debounce timer; only
these events can lead to a settle signal and a commit attempt. -/
def armedEvents (events : List FsEvent) : List FsEvent :=
  events.filter arms_timer

/-- A path lying within the version-control metadata directory, as the
specification words it: `".git"` occurs as a whole path component. -/
def inMetaDir (p : String) : Bool :=
  (strSplitOn p "/").contains ".git"

/-- The specification's claim about the event filter, as stated: the timer is
armed iff the kind is a modification and no path lies within the metadata
directory. -/
def c2_claim_prop : Prop :=
  ∀ e : FsEvent,
    arms_timer e = ((e.kind == EventKind.modify) && !(e.paths.any inMetaDir))

/-- `stop_file_watcher` from the source: returns a cleared status
unconditionally (it reads and writes no session state). -/
def stop_file_watcher : FileWatcherStatus := ⟨false, none, none, none⟩

/-- `get_file_watcher_status` from the source: returns a cleared, stopped
status unconditionally (it reads no session state). -/
def get_file_watcher_status : FileWatcherStatus := ⟨false, none, none, none⟩

/-- The validation phase and return value of `start_file_watcher`: the two
root checks, then the status value returned to the caller on success. -/
def start_file_watcher_result (project_path : String)
    (log_file_path : Option String) (dirExists gitDirExists : Bool) :
    Except String FileWatcherStatus :=
  if !dirExists then .error "项目路径不存在"
  else if !gitDirExists then .error "项目不是 Git 仓库"
  else .ok ⟨true, some project_path, log_file_path, none⟩

/-- The specification's claim about `status()` after a successful start, as
stated: status then reports a watching state carrying the configuration. -/
def c8_claim_prop : Prop :=
  ∀ (p : String) (log : Option String),
    start_file_watcher_result p log true true = .ok ⟨true, some p, log, none⟩ →
    get_file_watcher_status = ⟨true, some p, log, none⟩

/-- A timestamp parsed from the git format `%Y-%m-%d %H:%M:%S %z`.
`tzMinutes` is the signed offset east of UTC in minutes. -/
structure GitTimestamp where
  year : Nat
  month : Nat
  day : Nat
  hour : Nat
  minute : Nat
  second : Nat
  tzMinutes : Int
deriving DecidableEq

/-- Value of a decimal digit character. -/
def digitVal (c : Char) : Option Nat :=
  if c.isDigit then some (c.toNat - 48) else none

/-- Parse exactly `k` decimal digits (accumulating into `acc`). -/
def parseFixedNat (k : Nat) (acc : Nat) (cs : List Char) :
    Option (Nat × List Char) :=
  match k with
  | 0 => some (acc, cs)
  | k + 1 =>
    match cs with
    | [] => none
    | c :: rest =>
      match digitVal c with
      | some d => parseFixedNat k (acc * 10 + d) rest
      | none => none

/-- Consume one expected character. -/
def expectChar (c : Char) (cs : List Char) : Option (List Char) :=
  match cs with
  | [] => none
  | x :: rest => if x = c then some rest else none

/-- Consume a timezone sign, returning true for a plus. -/
def parseSign (cs : List Char) : Option (Bool × List Char) :=
  match cs with
  | [] => none
  | x :: rest =>
    if x = '+' then some (true, rest)
    else if x = '-' then some (false, rest)
    else none

/-- Gregorian leap year. -/
def isLeap (y : Nat) : Bool :=
  (y % 4 == 0 && y % 100 != 0) || y % 400 == 0

/-- Days in month `m` of year `y` (months numbered from 1). -/
def daysInMonth (y m : Nat) : Nat :=
  if m = 2 then (if isLeap y then 29 else 28)
  else if m = 4 ∨ m = 6 ∨ m = 9 ∨ m = 11 then 30
  else 31

/-- Days in year `y` strictly before month `m`. -/
def daysBeforeMonth (y m : Nat) : Nat :=
  ((List.range (m - 1)).map (fun k => daysInMonth y (k + 1))).sum

/-- Days strictly before year `y` counting from 0001-01-01 (year at least 1). -/
def daysBeforeYear (y : Nat) : Nat :=
  let n := y - 1
  365 * n + n / 4 - n / 100 + n / 400

/-- Day index of a civil date counting 0001-01-01 as day 0. -/
def ratadie (y m d : Nat) : Nat :=
  daysBeforeYear y + daysBeforeMonth y m + (d - 1)

/-- Parse a `YYYY-MM-DD` date prefix. -/
def parseYmd (cs : List Char) : Option (Nat × Nat × Nat × List Char) := do
  let (y, cs) ← parseFixedNat 4 0 cs
  let cs ← expectChar '-' cs
  let (mo, cs) ← parseFixedNat 2 0 cs
  let cs ← expectChar '-' cs
  let (d, cs) ← parseFixedNat 2 0 cs
  some (y, mo, d, cs)

/-- Parse a `HH:MM:SS` time prefix. -/
def parseHms (cs : List Char) : Option (Nat × Nat × Nat × List Char) := do
  let (h, cs) ← parseFixedNat 2 0 cs
  let cs ← expectChar ':' cs
  let (mi, cs) ← parseFixedNat 2 0 cs
  let cs ← expectChar ':' cs
  let (se, cs) ← parseFixedNat 2 0 cs
  some (h, mi, se, cs)

/-- Parse a `±HHMM` timezone offset into signed minutes east of UTC. -/
def parseTz (cs : List Char) : Option (Int × List Char) := do
  let (sign, cs) ← parseSign cs
  let (tzh, cs) ← parseFixedNat 2 0 cs
  let (tzm, cs) ← parseFixedNat 2 0 cs
  if tzm < 60 then
    some ((if sign then (1 : Int) else -1) * Int.ofNat (tzh * 60 + tzm), cs)
  else none

/-- Model of `chrono::DateTime::parse_from_str` with format
`"%Y-%m-%d %H:%M:%S %z"` at its canonical field widths (four-digit year,
two-digit numeric fields, `±HHMM` offset): parse the whole string or fail,
rejecting out-of-range calendar fields. -/
def parseGitTimestamp (s : String) : Option GitTimestamp := do
  let (y, mo, d, cs) ← parseYmd s.toList
  let cs ← expectChar ' ' cs
  let (h, mi, se, cs) ← parseHms cs
  let cs ← expectChar ' ' cs
  let (tz, cs) ← parseTz cs
  if cs = [] ∧ 1 ≤ y ∧ 1 ≤ mo ∧ mo ≤ 12 ∧ 1 ≤ d ∧ d ≤ daysInMonth y mo ∧
      h < 24 ∧ mi < 60 ∧ se < 60 then
    some ⟨y, mo, d, h, mi, se, tz⟩
  else none

/-- The UTC instant of a parsed timestamp, in minutes from 0001-01-01 00:00. -/
def toMinutesUTC (t : GitTimestamp) : Int :=
  Int.ofNat (ratadie t.year t.month t.day * 1440 + t.hour * 60 + t.minute) -
    t.tzMinutes

/-- A civil date-and-time to minute precision. -/
structure CivilMinute where
  year : Nat
  month : Nat
  day : Nat
  hour : Nat
  minute : Nat
deriving DecidableEq

/-- Year containing day index `r` (inverse of `daysBeforeYear`, searched from
a division-based lower estimate). -/
def yearOfDay (r : Nat) : Nat :=
  let y0 := r / 366 + 1
  y0 + ((List.range 32).filter (fun k => daysBeforeYear (y0 + k + 1) ≤ r)).length

/-- Civil fields of a minute count from 0001-01-01 00:00. -/
def civilOfMinutes (n : Nat) : CivilMinute :=
  let day := n / 1440
  let rem := n % 1440
  let y := yearOfDay day
  let doy := day - daysBeforeYear y
  let m := 1 + ((List.range 11).filter (fun k => daysBeforeMonth y (k + 2) ≤ doy)).length
  ⟨y, m, doy - daysBeforeMonth y m + 1, rem / 60, rem % 60⟩

/-- Zero-pad to two digits. -/
def pad2 (n : Nat) : String :=
  if n < 10 then "0" ++ toString n else toString n

/-- Zero-pad to four digits. -/
def pad4 (n : Nat) : String :=
  if n < 10 then "000" ++ toString n
  else if n < 100 then "00" ++ toString n
  else if n < 1000 then "0" ++ toString n
  else toString n

/-- Model of `dt.with_timezone(&Local)` followed by
`format("%Y年%m月%d日 %H:%M")`: shift the instant to the machine's local
offset (`localOffset`, minutes east of UTC, a model parameter for the
environment-dependent `Local` zone) and render the civil fields. -/
def renderLocal (localOffset : Int) (t : GitTimestamp) : String :=
  let c := civilOfMinutes (toMinutesUTC t + localOffset).toNat
  pad4 c.year ++ "年" ++ pad2 c.month ++ "月" ++ pad2 c.day ++ "日 " ++
    pad2 c.hour ++ ":" ++ pad2 c.minute

/-- `format_git_date` from the source: reformat a parseable timestamp into
the local-time friendly string, and return an unparseable input unchanged. -/
def format_git_date (localOffset : Int) (date_str : String) : String :=
  match parseGitTimestamp date_str with
  | some t => renderLocal localOffset t
  | none => date_str

/-- The per-line parsing step of the `get_snapshot_history` loop: blank lines
and lines with fewer than three pipe-separated fields yield no record;
otherwise the first field (trimmed) is the hash, the second (trimmed, then
date-formatted) the date, and the remaining fields rejoined with `"|"` (then
trimmed) the message. -/
def parse_history_line (localOffset : Int) (line : String) :
    Option SnapshotHistoryItem :=
  if strTrim line = "" then none
  else if 3 ≤ (strSplitOn line "|").length then
    some ⟨strTrim ((strSplitOn line "|").headD ""),
      format_git_date localOffset (strTrim ((strSplitOn line "|").getD 1 "")),
      strTrim (strIntercalate "|" ((strSplitOn line "|").drop 2))⟩
  else none

/-- The history list built by `get_snapshot_history` from the raw log
output. -/
def get_snapshot_history_items (localOffset : Int) (log_output : String) :
    List SnapshotHistoryItem :=
  (rustLines log_output).filterMap (parse_history_line localOffset)

/-- `FileDiffContent` from the source. -/
structure FileDiffContent where
  success : Bool
  diff_content : Option String
  error : Option String
deriving DecidableEq

/-- Environment of one `get_file_diff_content` call: the filesystem checks,
whether `git rev-parse hash^` succeeded, and the outcomes of the
`git show hash:file` and `git diff hash^ hash -- file` invocations. -/
structure DiffEnv where
  dirExists : Bool
  gitDirExists : Bool
  parentCheckSuccess : Bool
  showResult : Except String CmdResult
  diffResult : Except String CmdResult

/-- Model of the Rust byte slice `&s[..n]` on an ASCII string (all hashes and
revision names the function slices are ASCII, so bytes and characters
coincide): `none` models the panic raised when `n` exceeds the length. -/
def rustByteSlice (s : String) (n : Nat) : Option String :=
  if n ≤ s.length then some (strTake s n) else none

/-- Prefix every line with `"+"` and rejoin, as both synthetic-diff branches
of `get_file_diff_content` do. -/
def plusJoined (lines : List String) : String :=
  strIntercalate "\n" (lines.map (fun line => "+" ++ line))

/-- `get_file_diff_content` from the source.  The overall `none` models a
panic; every non-panicking path returns `some` of the structured result.  In
the no-parent branch the source guards its slice with `hash.len() >= 8`; in
the empty-diff branch it slices `&hash[..8]` unguarded, modelled by
`rustByteSlice hash 8`. -/
def get_file_diff_content (env : DiffEnv) (hash file_path : String) :
    Option FileDiffContent :=
  if !env.dirExists then some ⟨false, none, some "项目路径不存在"⟩
  else if !env.gitDirExists then some ⟨false, none, some "项目不是 Git 仓库"⟩
  else if strTrim hash = "" ∨ strTrim file_path = "" then
    some ⟨false, none, some "提交哈希和文件路径不能为空"⟩
  else if !env.parentCheckSuccess then
    match env.showResult with
    | .error e => some ⟨false, none, some ("无法执行 git show: " ++ e)⟩
    | .ok fo =>
      if fo.success then
        let lines := rustLines fo.stdout
        let hash_short := if 8 ≤ hash.length then strTake hash 8 else hash
        some ⟨true, some ("--- 文件内容 (初始提交 " ++ hash_short ++ ")\n+++ " ++
          file_path ++ "\n@@ -0,0 +1," ++ toString lines.length ++ " @@\n" ++
          plusJoined lines), none⟩
      else some ⟨false, none, some ("获取文件内容失败: " ++ fo.stderr)⟩
  else
    match env.diffResult with
    | .error e => some ⟨false, none, some ("无法执行 git diff: " ++ e)⟩
    | .ok d =>
      if d.success then
        if strTrim d.stdout = "" then
          match env.showResult with
          | .error e => some ⟨false, none, some ("无法执行 git show: " ++ e)⟩
          | .ok fo =>
            if fo.success then
              match rustByteSlice hash 8 with
              | none => none
              | some h8 =>
                some ⟨true, some ("--- 文件内容 (快照 " ++ h8 ++ ")\n+++ " ++
                  file_path ++ "\n@@ -1,1 +1," ++
                  toString (rustLines fo.stdout).length ++ " @@\n" ++
                  plusJoined (rustLines fo.stdout)), none⟩
            else some ⟨false, none, some ("获取文件内容失败: " ++ fo.stderr)⟩
        else some ⟨true, some d.stdout, none⟩
      else some ⟨false, none, some ("Git diff 失败: " ++ d.stderr)⟩

/-- Invariant of the `parse_friendly_diff` loop state: the next display
number is one past the `n` numbers handed out so far, the non-removed lines
emitted so far are numbered `1..n` in order, removed lines carry no number,
and every emitted line has one of the three classifications. -/
def StateInv (st : ParseState) (n : Nat) : Prop :=
  st.lineNo = n + 1
  ∧ (nonRemoved st.lines).map (fun x => x.line_number) = seqNums n
  ∧ (∀ x ∈ st.lines, x.change_type = "removed" → x.line_number = none)
  ∧ (∀ x ∈ st.lines, x.change_type = "added" ∨ x.change_type = "removed" ∨
      x.change_type = "unchanged")

/-- A raw diff with six added lines and one removed line. -/
def sixAddOneRemove : String := "+a\n+b\n+c\n+d\n+e\n+f\n-x\n"

/-- Environment of the panicking `get_file_diff_content` call: directory and
repository exist, the commit has a parent, `git diff parent..hash -- file`
succeeds with empty output, and `git show hash:file` succeeds. -/
def c7_panic_env : DiffEnv :=
  ⟨true, true, true, .ok ⟨true, "line one\nline two\n", ""⟩, .ok ⟨true, "", ""⟩⟩

/-- Same environment except the commit has no parent, exercising the guarded
slice of the initial-commit branch. -/
def c7_guarded_env : DiffEnv :=
  ⟨true, true, false, .ok ⟨true, "line one\nline two\n", ""⟩, .ok ⟨true, "", ""⟩⟩

/-- C1 counterexample: reading an instruction log whose final line is blank
while an earlier non-blank line exists yields the default label, not the
earlier non-blank line, refuting the label-resolution rule as stated. -/
theorem c1_counterexample : ¬ c1_claim_prop :=
  fun h => absurd (h "fix the bug\n\n") (by decide)

/-- C1 (amended): auto-commit resolves the label to the trimmed final line of
the instruction log when the log is configured, readable, and its final line
is non-blank; when the log is not configured, unreadable, empty, or its final
line is blank (even if an earlier non-blank line exists), the label is the
fixed default.  The resolved label is embedded in the commit invocation of
`auto_commit_changes`. -/
theorem c1_last_line_label (content last_line : String) :
    (get_latest_prompt none = default_prompt)
    ∧ (get_latest_prompt (some none) = default_prompt)
    ∧ ((rustLines content).getLast? = some last_line → strTrim last_line ≠ "" →
        get_latest_prompt (some (some content)) = strTrim last_line)
    ∧ ((rustLines content).getLast? = some last_line → strTrim last_line = "" →
        get_latest_prompt (some (some content)) = default_prompt)
    ∧ ((rustLines content).getLast? = none →
        get_latest_prompt (some (some content)) = default_prompt)
    ∧ (∀ (env : AutoCommitEnv) (addOut : CmdResult), addOut.success = true →
        env.addResult = .ok addOut →
        GitCmd.commit ("[Vibe] AI Prompt: " ++ get_latest_prompt env.logRead) ∈
          (auto_commit_changes_run env).2) := by
  refine ⟨rfl, rfl, ?_, ?_, ?_, ?_⟩
  · intro hlast hnb
    simp [get_latest_prompt, hlast, hnb]
  · intro hlast hb
    simp [get_latest_prompt, hlast, hb]
  · intro hnone
    simp [get_latest_prompt, hnone]
  · intro env addOut hs he
    simp [auto_commit_changes_run, he, hs]
    cases hc : env.commitResult with
    | error e => simp
    | ok c =>
      cases hcs : c.success with
      | true => simp [hcs]
      | false =>
        simp [hcs]
        split_ifs <;> simp

/-- C1 witness: a log ending in the non-blank line `"b"` yields the label
`"b"`, and the auto-commit pipeline invokes git commit with that label. -/
theorem c1_last_line_label_witness :
    get_latest_prompt (some (some "a\nb")) = "b"
    ∧ GitCmd.commit ("[Vibe] AI Prompt: " ++ get_latest_prompt (some (some "a\nb"))) ∈
        (auto_commit_changes_run
          ⟨some (some "a\nb"), .ok ⟨true, "", ""⟩, .ok ⟨true, "", ""⟩⟩).2 := by
  have h := c1_last_line_label "a\nb" "b"
  exact ⟨(h.2.2.1 (by decide) (by decide)).trans (by decide),
    h.2.2.2.2.2 ⟨some (some "a\nb"), .ok ⟨true, "", ""⟩, .ok ⟨true, "", ""⟩⟩
      ⟨true, "", ""⟩ rfl rfl⟩

/-- C2 counterexample: a modification of `.gitignore` — a path that does not
lie within the `.git` metadata directory but contains `".git"` as a
substring — arms no timer, refuting the filter description as stated. -/
theorem c2_counterexample : ¬ c2_claim_prop :=
  fun h => absurd (h ⟨.modify, ["/p/.gitignore"]⟩) (by decide)

/-- C2 (amended): the watcher loop arms a debounce timer exactly on
modification events none of whose paths contains `".git"` as a substring
(a superset of the metadata directory: `.gitignore` edits are also
discarded); creation and removal events never arm a timer; events with a
`".git"` path never arm one, and a trace made only of such events arms no
timer at all, so no settle signal or commit attempt can arise from it. -/
theorem c2_event_filter (e : FsEvent) (events : List FsEvent) :
    (arms_timer e = true ↔
      e.kind = EventKind.modify ∧ ∀ p ∈ e.paths, containsSubstr p ".git" = false)
    ∧ (e.kind = EventKind.create ∨ e.kind = EventKind.remove →
        arms_timer e = false)
    ∧ ((∃ p ∈ e.paths, containsSubstr p ".git" = true) → arms_timer e = false)
    ∧ ((events.all fun ev => ev.paths.any fun p => containsSubstr p ".git") = true →
        armedEvents events = []) := by
  refine ⟨?_, ?_, ?_, ?_⟩
  · simp only [arms_timer, should_ignore, Bool.and_eq_true, beq_iff_eq,
      Bool.not_eq_true', List.any_eq_false]
    constructor
    · rintro ⟨h1, h2⟩
      exact ⟨h1, fun p hp => by simpa using h2 p hp⟩
    · rintro ⟨h1, h2⟩
      exact ⟨h1, fun p hp => by simpa using h2 p hp⟩
  · intro h
    have hk : (e.kind == EventKind.modify) = false := by
      rcases h with h | h <;> rw [h] <;> decide
    simp [arms_timer, hk]
  · rintro ⟨p, hp, hsub⟩
    simp only [arms_timer, should_ignore, Bool.and_eq_false_iff]
    right
    simp only [Bool.not_eq_false', List.any_eq_true]
    exact ⟨p, hp, hsub⟩
  · intro hall
    simp only [armedEvents, List.filter_eq_nil_iff]
    intro ev hev
    simp only [List.all_eq_true] at hall
    have := hall ev hev
    simp only [arms_timer, should_ignore, this, Bool.not_true, Bool.and_false,
      Bool.not_eq_true]

/-- C2 witness: a creation event arms nothing; a modification inside `.git`
arms nothing; a trace consisting only of `.git` events arms nothing. -/
theorem c2_event_filter_witness :
    arms_timer ⟨EventKind.create, ["a.txt"]⟩ = false
    ∧ arms_timer ⟨EventKind.modify, ["/p/.git/index"]⟩ = false
    ∧ armedEvents [⟨EventKind.modify, ["/p/.git/index"]⟩] = [] :=
  ⟨(c2_event_filter ⟨EventKind.create, ["a.txt"]⟩ []).2.1 (Or.inl rfl),
    (c2_event_filter ⟨EventKind.modify, ["/p/.git/index"]⟩ []).2.2.1
      ⟨"/p/.git/index", by decide, by decide⟩,
    (c2_event_filter ⟨EventKind.create, ["a.txt"]⟩
      [⟨EventKind.modify, ["/p/.git/index"]⟩]).2.2.2 (by decide)⟩

/-- C8 counterexample: after a successful start with project path `"proj"`,
`get_file_watcher_status` still reports the stopped state with no
configuration, refuting the status claim as stated. -/
theorem c8_counterexample : ¬ c8_claim_prop :=
  fun h => absurd (h "proj" none rfl) (by decide)

/-- C8 (amended): `stop_file_watcher` unconditionally returns the cleared
stopped status (so calling it on an already-stopped session is a no-op
returning Stopped, and it is idempotent), and `get_file_watcher_status`
reads no state and always reports the stopped state with no configuration —
even immediately after a successful `start_file_watcher` call. -/
theorem c8_stop_idempotent_status_constant :
    stop_file_watcher = ⟨false, none, none, none⟩
    ∧ get_file_watcher_status = stop_file_watcher
    ∧ ∀ (p : String) (log : Option String),
        start_file_watcher_result p log true true = .ok ⟨true, some p, log, none⟩
        ∧ get_file_watcher_status.is_watching = false
        ∧ get_file_watcher_status.project_path = none :=
  ⟨rfl, rfl, fun _ _ => ⟨rfl, rfl, rfl⟩⟩

/-- C7: `get_file_diff_content` panics on a short revision name.  With the
hash `"HEAD"` (4 bytes, passing the non-blank validation), a commit that has
a parent, a successful `git diff` with empty output, and a successful
`git show`, the empty-diff branch evaluates `&hash[..8]` out of bounds
(modelled as `none`); the sibling no-parent branch guards the same slice and
returns normally for the same hash. -/
theorem c7_short_hash_panic :
    get_file_diff_content c7_panic_env "HEAD" "src/main.rs" = none
    ∧ (strTrim "HEAD" != "") = true
    ∧ rustByteSlice "HEAD" 8 = none
    ∧ (get_file_diff_content c7_guarded_env "HEAD" "src/main.rs").isSome = true :=
  ⟨rfl, by decide, rfl, rfl⟩

/-- C5: on every history record line with at least two pipe delimiters (three
fields), parsing takes the first field as the hash, formats the second as the
date, and rejoins all fields after the second with the pipe delimiter as the
subject (each trimmed as in the source). -/
theorem c5_history_parse (localOffset : Int) (line : String)
    (hfields : 3 ≤ (strSplitOn line "|").length) (hnb : strTrim line ≠ "") :
    parse_history_line localOffset line =
      some ⟨strTrim ((strSplitOn line "|").headD ""),
        format_git_date localOffset (strTrim ((strSplitOn line "|").getD 1 "")),
        strTrim (strIntercalate "|" ((strSplitOn line "|").drop 2))⟩ := by
  unfold parse_history_line
  rw [if_neg hnb, if_pos hfields]

/-- C5 witness: the delimiter-containing subject of the specification's
example is preserved. -/
theorem c5_history_parse_witness :
    parse_history_line 480 "a1b2c3|2023-10-25 10:00:00 +0800|Fix bug|extra" =
      some ⟨"a1b2c3", "2023年10月25日 10:00", "Fix bug|extra"⟩ := by
  have h := c5_history_parse 480 "a1b2c3|2023-10-25 10:00:00 +0800|Fix bug|extra"
    (by decide) (by decide)
  rw [h]
  rfl

/-- C6: when the commit subprocess fails with stderr containing one of the
two known no-change phrasings, both `create_snapshot` and
`auto_commit_changes` return the benign no-change outcome — success false
with the distinct no-change message — and not their generic commit-failure
outcomes. -/
theorem c6_benign_no_change (stderrText addOut commitOut msg : String)
    (log : Option (Option String))
    (hbenign : containsSubstr stderrText "nothing to commit" = true ∨
      containsSubstr stderrText "no changes added to commit" = true)
    (hmsg : strTrim msg ≠ "") :
    create_snapshot ⟨true, true, .ok ⟨true, addOut, ""⟩,
        .ok ⟨false, commitOut, stderrText⟩⟩ msg = benign_no_change
    ∧ auto_commit_changes ⟨log, .ok ⟨true, addOut, ""⟩,
        .ok ⟨false, commitOut, stderrText⟩⟩ = benign_no_change
    ∧ benign_no_change.success = false
    ∧ benign_no_change.message = "没有检测到变更"
    ∧ (benign_no_change.message != "创建快照失败") = true
    ∧ (benign_no_change.message != "自动创建快照失败") = true := by
  rcases hbenign with h | h <;>
    exact ⟨by simp [create_snapshot, create_snapshot_run, hmsg, h, benign_no_change],
      by simp [auto_commit_changes, auto_commit_changes_run, h, benign_no_change],
      rfl, rfl, by decide, by decide⟩

/-- C6 witness: the canonical clean-tree stderr of the tool produces the
benign outcome on both paths. -/
theorem c6_benign_no_change_witness :
    create_snapshot ⟨true, true, .ok ⟨true, "", ""⟩,
        .ok ⟨false, "", "nothing to commit, working tree clean"⟩⟩ "fix" =
      benign_no_change
    ∧ auto_commit_changes ⟨none, .ok ⟨true, "", ""⟩,
        .ok ⟨false, "", "nothing to commit, working tree clean"⟩⟩ =
      benign_no_change := by
  have h := c6_benign_no_change "nothing to commit, working tree clean" "" "" "fix"
    none (Or.inl (by decide)) (by decide)
  exact ⟨h.1, h.2.1⟩

/-- C9: `create_snapshot` validates root existence, version control, and
non-blank label in that order; each violation returns a structured outcome
with success false and a violation-specific message (the three messages are
pairwise distinct), and invokes no git command. -/
theorem c9_validation (env : CommitEnv) (msg : String) :
    (env.dirExists = false →
      create_snapshot_run env msg =
        (⟨false, "项目路径不存在", some "目录不存在"⟩, []))
    ∧ (env.dirExists = true → env.gitDirExists = false →
      create_snapshot_run env msg =
        (⟨false, "项目不是 Git 仓库", some "请先初始化项目"⟩, []))
    ∧ (env.dirExists = true → env.gitDirExists = true → strTrim msg = "" →
      create_snapshot_run env msg =
        (⟨false, "请输入 AI 指令", some "消息不能为空"⟩, []))
    ∧ (("项目路径不存在" != "项目不是 Git 仓库") = true
        ∧ ("项目路径不存在" != "请输入 AI 指令") = true
        ∧ ("项目不是 Git 仓库" != "请输入 AI 指令") = true) := by
  refine ⟨?_, ?_, ?_, by decide, by decide, by decide⟩
  · intro h1
    simp [create_snapshot_run, h1]
  · intro h1 h2
    simp [create_snapshot_run, h1, h2]
  · intro h1 h2 h3
    simp [create_snapshot_run, h1, h2, h3]

/-- C9 witness: the three validation failures at concrete inputs. -/
theorem c9_validation_witness :
    create_snapshot_run ⟨false, true, .ok ⟨true, "", ""⟩, .ok ⟨true, "", ""⟩⟩ "m" =
      (⟨false, "项目路径不存在", some "目录不存在"⟩, [])
    ∧ create_snapshot_run ⟨true, false, .ok ⟨true, "", ""⟩, .ok ⟨true, "", ""⟩⟩ "m" =
      (⟨false, "项目不是 Git 仓库", some "请先初始化项目"⟩, [])
    ∧ create_snapshot_run ⟨true, true, .ok ⟨true, "", ""⟩, .ok ⟨true, "", ""⟩⟩ "  " =
      (⟨false, "请输入 AI 指令", some "消息不能为空"⟩, []) :=
  ⟨(c9_validation ⟨false, true, .ok ⟨true, "", ""⟩, .ok ⟨true, "", ""⟩⟩ "m").1 rfl,
    (c9_validation ⟨true, false, .ok ⟨true, "", ""⟩, .ok ⟨true, "", ""⟩⟩ "m").2.1
      rfl rfl,
    (c9_validation ⟨true, true, .ok ⟨true, "", ""⟩, .ok ⟨true, "", ""⟩⟩ "  ").2.2.1
      rfl rfl (by decide)⟩

/-- C10: the date formatter reformats a parseable timestamp into the
local-time friendly rendering and returns an unparseable timestamp string
unchanged; in both cases the history record containing it is still
produced. -/
theorem c10_date_formatting (localOffset : Int) (s line : String) :
    (parseGitTimestamp s = none → format_git_date localOffset s = s)
    ∧ (∀ t, parseGitTimestamp s = some t →
        format_git_date localOffset s = renderLocal localOffset t)
    ∧ (strTrim line ≠ "" → 3 ≤ (strSplitOn line "|").length →
        parse_history_line localOffset line =
          some ⟨strTrim ((strSplitOn line "|").headD ""),
            format_git_date localOffset (strTrim ((strSplitOn line "|").getD 1 "")),
            strTrim (strIntercalate "|" ((strSplitOn line "|").drop 2))⟩) := by
  refine ⟨?_, ?_, ?_⟩
  · intro h
    unfold format_git_date
    rw [h]
  · intro t h
    unfold format_git_date
    rw [h]
  · intro hnb hfields
    unfold parse_history_line
    rw [if_neg hnb, if_pos hfields]

/-- C10 witness: an unparseable timestamp passes through unchanged and its
record is still produced; a parseable one is reformatted. -/
theorem c10_date_formatting_witness :
    format_git_date 480 "yesterday" = "yesterday"
    ∧ parse_history_line 480 "abc|yesterday|msg" = some ⟨"abc", "yesterday", "msg"⟩
    ∧ format_git_date 480 "2023-10-25 10:00:00 +0800" = "2023年10月25日 10:00" := by
  have h1 := (c10_date_formatting 480 "yesterday" "abc|yesterday|msg").1 (by decide)
  have h3 := (c10_date_formatting 480 "abc|yesterday|msg" "abc|yesterday|msg").2.2
    (by decide) (by decide)
  refine ⟨h1, ?_, by decide⟩
  rw [h3]
  rfl

/-- One loop step changes the added counter exactly on added-classified
lines. -/
theorem stepLine_added_eq (st : ParseState) (l : String) :
    (stepLine st l).added = st.added + (if isAddedLine l then 1 else 0) := by
  unfold stepLine isAddedLine
  cases h1 : skipLine l <;>
    cases h2 : (strStartsWith l "+" && !strStartsWith l "+++") <;>
      cases h3 : (strStartsWith l "-" && !strStartsWith l "---") <;>
        cases h4 : (l != "") <;> simp [h1, h2, h3, h4]

/-- One loop step changes the removed counter exactly on removed-classified
lines. -/
theorem stepLine_removed_eq (st : ParseState) (l : String) :
    (stepLine st l).removed = st.removed + (if isRemovedLine l then 1 else 0) := by
  unfold stepLine isRemovedLine
  cases h1 : skipLine l <;>
    cases h2 : (strStartsWith l "+" && !strStartsWith l "+++") <;>
      cases h3 : (strStartsWith l "-" && !strStartsWith l "---") <;>
        cases h4 : (l != "") <;> simp [h1, h2, h3, h4]

/-- The folded added counter counts the added-classified lines. -/
theorem foldl_added (ls : List String) (st : ParseState) :
    (ls.foldl stepLine st).added = st.added + (ls.filter isAddedLine).length := by
  induction ls generalizing st with
  | nil => simp
  | cons l ls ih =>
    rw [List.foldl_cons, ih, stepLine_added_eq, List.filter_cons]
    by_cases h : isAddedLine l <;> simp [h] <;> omega

/-- The folded removed counter counts the removed-classified lines. -/
theorem foldl_removed (ls : List String) (st : ParseState) :
    (ls.foldl stepLine st).removed = st.removed + (ls.filter isRemovedLine).length := by
  induction ls generalizing st with
  | nil => simp
  | cons l ls ih =>
    rw [List.foldl_cons, ih, stepLine_removed_eq, List.filter_cons]
    by_cases h : isRemovedLine l <;> simp [h] <;> omega

/-- The source's summary cascade agrees with the specification's branch
selection applied to the two counts. -/
theorem diffSummary_eq_spec (a r : Nat) :
    diffSummary a r = summaryTextOfKind (summaryKindSpec a r) a r := by
  unfold diffSummary summaryKindSpec summaryTextOfKind
  split_ifs <;> rfl

/-- C3: for every raw diff, the renderer's summary is selected from the
added count and removed count by exactly the specified thresholds in the
specified order; in particular six added and one removed lines select the
large-addition branch. -/
theorem c3_summary_selection :
    (∀ raw : String, (parse_friendly_diff raw).summary =
      some (summaryTextOfKind (summaryKindSpec (addedCount raw) (removedCount raw))
        (addedCount raw) (removedCount raw)))
    ∧ summaryKindSpec 6 1 = SummaryKind.largeAdd
    ∧ addedCount sixAddOneRemove = 6
    ∧ removedCount sixAddOneRemove = 1
    ∧ (parse_friendly_diff sixAddOneRemove).summary =
        some "此快照在文件中添加了大量新内容。" := by
  refine ⟨?_, by decide, by decide, by decide, by decide⟩
  intro raw
  simp only [parse_friendly_diff, foldl_added, foldl_removed, Nat.zero_add,
    diffSummary_eq_spec, addedCount, removedCount]

/-- `seqNums` grows by appending the next number. -/
theorem seqNums_succ (n : Nat) : seqNums (n + 1) = seqNums n ++ [some (n + 1)] := by
  unfold seqNums
  rw [List.range_succ, List.map_append]
  rfl

/-- `nonRemoved` distributes over append. -/
theorem nonRemoved_append (L M : List FriendlyDiffLine) :
    nonRemoved (L ++ M) = nonRemoved L ++ nonRemoved M := by
  unfold nonRemoved
  simp [List.filter_append]

/-- One loop step preserves the numbering invariant, advancing the count on
numbered (added / unchanged) lines and keeping it on others. -/
theorem stepLine_inv (st : ParseState) (l : String) (n : Nat) (h : StateInv st n) :
    StateInv (stepLine st l) n ∨ StateInv (stepLine st l) (n + 1) := by
  obtain ⟨hn, hmap, hrem, htype⟩ := h
  unfold stepLine
  split_ifs with h1 h2 h3 h4
  · exact Or.inl ⟨hn, hmap, hrem, htype⟩
  · right
    refine ⟨by simp [hn], ?_, ?_, ?_⟩
    · simp only [nonRemoved_append, List.map_append, hmap, seqNums_succ]
      have : nonRemoved [⟨strDrop l 1, "added", some st.lineNo⟩] =
          [⟨strDrop l 1, "added", some st.lineNo⟩] := by
        unfold nonRemoved
        rfl
      rw [this, hn]
      rfl
    · intro x hx
      rcases List.mem_append.mp hx with hx | hx
      · exact hrem x hx
      · intro hxr
        simp at hx
        rw [hx] at hxr
        exact absurd hxr (show ¬("added" : String) = "removed" by decide)
    · intro x hx
      rcases List.mem_append.mp hx with hx | hx
      · exact htype x hx
      · simp at hx
        rw [hx]
        exact Or.inl rfl
  · left
    refine ⟨hn, ?_, ?_, ?_⟩
    · simp only [nonRemoved_append, List.map_append, hmap]
      have : nonRemoved [⟨strDrop l 1, "removed", none⟩] = [] := by
        unfold nonRemoved
        rfl
      rw [this]
      simp
    · intro x hx
      rcases List.mem_append.mp hx with hx | hx
      · exact hrem x hx
      · intro _
        simp at hx
        rw [hx]
    · intro x hx
      rcases List.mem_append.mp hx with hx | hx
      · exact htype x hx
      · simp at hx
        rw [hx]
        exact Or.inr (Or.inl rfl)
  · right
    refine ⟨by simp [hn], ?_, ?_, ?_⟩
    · simp only [nonRemoved_append, List.map_append, hmap, seqNums_succ]
      have : nonRemoved [⟨l, "unchanged", some st.lineNo⟩] =
          [⟨l, "unchanged", some st.lineNo⟩] := by
        unfold nonRemoved
        rfl
      rw [this, hn]
      rfl
    · intro x hx
      rcases List.mem_append.mp hx with hx | hx
      · exact hrem x hx
      · intro hxr
        simp at hx
        rw [hx] at hxr
        exact absurd hxr (show ¬("unchanged" : String) = "removed" by decide)
    · intro x hx
      rcases List.mem_append.mp hx with hx | hx
      · exact htype x hx
      · simp at hx
        rw [hx]
        exact Or.inr (Or.inr rfl)
  · exact Or.inl ⟨hn, hmap, hrem, htype⟩

/-- The whole loop preserves the numbering invariant for some final count. -/
theorem foldl_inv (ls : List String) (st : ParseState) (n : Nat)
    (h : StateInv st n) : ∃ m, StateInv (ls.foldl stepLine st) m := by
  induction ls generalizing st n with
  | nil => exact ⟨n, h⟩
  | cons l ls ih =>
    rw [List.foldl_cons]
    rcases stepLine_inv st l n h with h2 | h2
    · exact ih _ _ h2
    · exact ih _ _ h2

/-- C4: in every rendered diff, removed lines carry no display number, every
line is classified added, removed, or unchanged, and the non-removed lines
carry the consecutive numbers 1, 2, 3, ... in order of appearance. -/
theorem c4_numbering (raw : String) :
    (∀ l ∈ (parse_friendly_diff raw).lines,
      l.change_type = "removed" → l.line_number = none)
    ∧ (∀ l ∈ (parse_friendly_diff raw).lines,
      l.change_type = "added" ∨ l.change_type = "removed" ∨
        l.change_type = "unchanged")
    ∧ (nonRemoved (parse_friendly_diff raw).lines).map (fun l => l.line_number)
        = seqNums (nonRemoved (parse_friendly_diff raw).lines).length := by
  have h0 : StateInv ⟨[], 0, 0, 1⟩ 0 := by
    refine ⟨rfl, rfl, ?_, ?_⟩ <;> intro x hx <;> simp at hx
  obtain ⟨m, hm⟩ := foldl_inv (rustLines raw) ⟨[], 0, 0, 1⟩ 0 h0
  obtain ⟨hn, hmap, hrem, htype⟩ := hm
  have hL : (parse_friendly_diff raw).lines =
      ((rustLines raw).foldl stepLine ⟨[], 0, 0, 1⟩).lines := rfl
  refine ⟨?_, ?_, ?_⟩
  · rw [hL]
    exact hrem
  · rw [hL]
    exact htype
  · rw [hL]
    have hlen : (nonRemoved ((rustLines raw).foldl stepLine ⟨[], 0, 0, 1⟩).lines).length
        = m := by
      have := congrArg List.length hmap
      simpa [seqNums] using this
    rw [hmap, hlen]

/-- C4 witness: a diff with one added, one removed, and one context line
numbers the non-removed lines 1, 2 and leaves the removed line unnumbered. -/
theorem c4_numbering_witness :
    (⟨"b", "removed", none⟩ : FriendlyDiffLine).line_number = none
    ∧ (nonRemoved (parse_friendly_diff "+a\n-b\nctx").lines).map
        (fun l => l.line_number) = [some 1, some 2] := by
  have h := c4_numbering "+a\n-b\nctx"
  refine ⟨h.1 ⟨"b", "removed", none⟩ (by decide) rfl, ?_⟩
  have h3 := h.2.2
  rw [show (nonRemoved (parse_friendly_diff "+a\n-b\nctx").lines).length = 2
    from by decide] at h3
  rw [h3]
  rfl

end VibeSnap
